import Mathlib

/-!
Verification of the node-host logging / invocation-wrapper core.

This file is a shallow embedding of the repository's core operations:

* the log-entry serializer of `LogBuffer.collect` and `errorAsJson`
  (`src/host/logging.ts`), including a model of V8's `JSON.stringify`
  with its reference-cycle detection;
* the `LogBuffer` state machine (`collect` / `flush` / the `setImmediate`
  transport-mode probe / the idle timer), with the transport's
  `sendEntries` calls recorded as a sequence of batches;
* the `EnrichingLogger` facade (`enrich`, `enrichReserved`, the leveled
  methods' field merging);
* the HTTP wrapper's `resultToResponse` / `withContentType` and the
  success-path tail of `executeRequest` (`src/host/http.ts`), plus the
  event and timer wrappers;
* the soft/hard timeout coordinator of `createContext`
  (`src/host/context.ts`).

JavaScript objects are modelled as ordered association lists where a later
binding shadows an earlier one, matching spread (`{...a, ...b}`) semantics.
-/

namespace NodeHost

/-- A JSON-ish JavaScript value as seen by the serializer.  Inline objects
(`vobj`) are freshly-constructed object literals; `vref` is a reference to
a shared (possibly cyclic) heap object, identified by a numeric id. -/
inductive JsonV where
  | vnull
  | vundef
  | vbool (b : Bool)
  | vnum (n : Int)
  | vstr (s : String)
  | vobj (fields : List (String × JsonV))
  | vref (id : Nat)

/-- A JavaScript object: an ordered list of key/value bindings. -/
abbrev JsObj := List (String × JsonV)

/-- The object heap: shared objects addressable by `JsonV.vref`, in id order. -/
abbrev JsHeap := List JsObj

/-- Spread of `a` followed by `b` (`{...a, ...b}`): bindings of `b` come
later and shadow those of `a` on lookup. -/
def jsSpread (a b : JsObj) : JsObj := a ++ b

/-- Property lookup on an object: the last binding of a key wins,
matching JavaScript assignment/spread semantics. -/
def jsGet (o : JsObj) (k : String) : Option JsonV :=
  (o.reverse.lookup k)

/-- Lookup through an optional object (`undefined` in the source). -/
def optGet (o : Option JsObj) (k : String) : Option JsonV :=
  o.bind (fun obj => jsGet obj k)

/-- The `extra` helper of `src/host/logging.ts`: merges the per-call
`fields` over the logger's `customEnrichment`, propagating `undefined`
when both are absent. -/
def extra (fields customEnrichment : Option JsObj) : Option JsObj :=
  match fields, customEnrichment with
  | none, none => none
  | none, some c => some c
  | some f, none => some f
  | some f, some c => some (jsSpread c f)

/-- The four fixed leading properties of the serialized entry literal in
`LogBuffer.collect`: `timestamp`, `level`, `message`, `error`.  An absent
error is an `undefined` property, which `JSON.stringify` omits. -/
def baseFields (timestamp level message : String) (errJson : Option JsonV) : JsObj :=
  [("timestamp", .vstr timestamp), ("level", .vstr level), ("message", .vstr message),
    ("error", errJson.getD .vundef)]

/-- The full property list of the object literal serialized by
`LogBuffer.collect`:
`{timestamp, level, message, error, ...reservedEnrichment, ...extra(fields, customEnrichment)}`. -/
def entryFields (timestamp level message : String) (errJson : Option JsonV)
    (reservedEnrichment customEnrichment fields : Option JsObj) : JsObj :=
  jsSpread (jsSpread (baseFields timestamp level message errJson) (reservedEnrichment.getD []))
    ((extra fields customEnrichment).getD [])

/-- The message of the `TypeError` V8 raises when `JSON.stringify` meets a
reference cycle; it deterministically names the property that closes the
circle.  (Modelled on the host runtime behaviour `LogBuffer.collect`
relies on; the wording is fixed for a given closing property.) -/
def circularErrorMessage (closingProperty : String) : String :=
  "Converting circular structure to JSON, property " ++ closingProperty ++
    " closes the circle"

/-- JSON string quoting.  The concrete strings serialized in this
development contain no characters that need escaping, so plain quoting is
exact for every input we evaluate. -/
def quoteSimple (s : String) : String := "\"" ++ s ++ "\""

mutual

/-- A model of V8's `JSON.stringify` on `JsonV`, propagating the cyclic
`TypeError` through `Except`.  The `stack` holds the ids of the heap
objects currently being serialized; revisiting one of them is a cycle.
`fuel` bounds recursion depth; every concrete input below is evaluated
with ample fuel.  A property whose value is `undefined` is omitted, and
`JSON.stringify(undefined)` itself yields no output (`none`). -/
def stringifyV (heap : JsHeap) : Nat → List Nat → JsonV → Except String (Option String)
  | 0, _, _ => .error "stringify out of fuel"
  | _ + 1, _, .vnull => .ok (some "null")
  | _ + 1, _, .vundef => .ok none
  | _ + 1, _, .vbool b => .ok (some (cond b "true" "false"))
  | _ + 1, _, .vnum n => .ok (some (toString n))
  | _ + 1, _, .vstr s => .ok (some (quoteSimple s))
  | fuel + 1, stack, .vobj fields => do
      let parts ← stringifyProps heap fuel stack fields
      .ok (some ("\x7b" ++ String.intercalate "," parts ++ "\x7d"))
  | fuel + 1, stack, .vref id =>
      if stack.contains id then .error (circularErrorMessage "")
      else
        match heap.get? id with
        | none => .ok (some "null")
        | some fields => do
            let parts ← stringifyProps heap fuel (id :: stack) fields
            .ok (some ("\x7b" ++ String.intercalate "," parts ++ "\x7d"))

/-- Serializes an object's property list; detecting, with the closing
property name, a reference back to an object on the serialization stack. -/
def stringifyProps (heap : JsHeap) : Nat → List Nat → List (String × JsonV) →
    Except String (List String)
  | 0, _, _ => .error "stringify out of fuel"
  | _ + 1, _, [] => .ok []
  | fuel + 1, stack, (k, v) :: rest => do
      match v with
      | .vref id =>
          if stack.contains id then .error (circularErrorMessage k)
          else do
            let sv ← stringifyV heap fuel stack (.vref id)
            let rest' ← stringifyProps heap fuel stack rest
            match sv with
            | none => .ok rest'
            | some s => .ok ((quoteSimple k ++ ":" ++ s) :: rest')
      | _ => do
          let sv ← stringifyV heap fuel stack v
          let rest' ← stringifyProps heap fuel stack rest
          match sv with
          | none => .ok rest'
          | some s => .ok ((quoteSimple k ++ ":" ++ s) :: rest')

end

/-- The `unknown` value passed as the `error` argument of a log call, as
classified by `errorAsJson` in `src/host/logging.ts`: absent
(`undefined`/`null`), an `Error` instance (with its `message`, `name`,
`stack` and its own enumerable properties), any other object (a heap
reference), or a primitive. -/
inductive ErrVal where
  | noErr
  | errObj (message name stack : String) (own : List (String × JsonV))
  | objVal (id : Nat)
  | prim (str ty : String)

/-- The `errorAsJson` function of `src/host/logging.ts`.  The heap is
needed for the plain-object case, whose spread (`{...error}`) shallowly
copies the object's own enumerable properties. -/
def errorAsJson (heap : JsHeap) : ErrVal → Option JsonV
  | .noErr => none
  | .errObj message name stack own =>
      some (.vobj (jsSpread
        [("message", .vstr message), ("name", .vstr name), ("stack", .vstr stack)] own))
  | .objVal id => some (.vobj ((heap.get? id).getD []))
  | .prim str ty => some (.vobj [("message", .vstr str), ("name", .vstr ty)])

/-- The serialization step of `LogBuffer.collect`
(`JSON.stringify({timestamp, level, message, error: errorAsJson(error),
...reservedEnrichment, ...extra(fields, customEnrichment)})`): everything
`collect` runs before pushing the entry.  A thrown `TypeError` is the
`Except.error` case — `collect` has no handler for it, so it propagates
out of the leveled logger method. -/
def collectJson (heap : JsHeap) (timestamp level message : String) (error : ErrVal)
    (reservedEnrichment customEnrichment fields : Option JsObj) :
    Except String String := do
  let entry := entryFields timestamp level message (errorAsJson heap error)
    reservedEnrichment customEnrichment fields
  let parts ← stringifyProps heap 100 [] entry
  .ok ("\x7b" ++ String.intercalate "," parts ++ "\x7d")

/-- The cyclic error of the repository's own test
(`src/test/logging.ts`, "handles cycles"): `extra.extra = extra`,
`error = Object.assign(new Error("AWS SDK"), \x7b extra \x7d)`.
Heap object 0 is `extra`, whose `extra` property refers back to itself. -/
def cyclicHeap : JsHeap := [[("extra", .vref 0)]]

/-- The `Error` instance of the "handles cycles" test: message `AWS SDK`,
own enumerable property `extra` referring to the self-referential object. -/
def cyclicError : ErrVal :=
  .errObj "AWS SDK" "Error" "stacktrace" [("extra", .vref 0)]

/-- One entry as held by the buffer: its numeric log level, the length of
its serialized JSON, and an identifying tag to tell entries apart. -/
structure Entry where
  lvl : Nat
  len : Nat
  tag : Nat
deriving DecidableEq, Repr

/-- The mutable state of a `LogBuffer` (`src/host/logging.ts`), together
with the observable history of the transport.

* `entries`, `size` — the `#entries` / `#size` fields.
* `sent` — the sequence of batches handed to `transport.sendEntries`, in
  hand-off order (chained sends are enqueued strictly after the batches
  already in the pipeline, so this is also delivery order).
* `flusher` — `none` when `#flusher` is unset (or was set from a
  synchronous `sendEntries` returning `undefined`); `some chain` when a
  pipeline promise exists, where `chain` lists every batch whose delivery
  that promise awaits.
* `asyncT` — the `#asyncTransport` tri-state.
* `probePending` — a `setImmediate` transport-mode probe is scheduled.
* `timerPending` — the tracked `#timeout` idle-flush timer, with its
  delay in milliseconds when set. -/
structure BufState where
  entries : List Entry
  size : Nat
  sent : List (List Entry)
  flusher : Option (List (List Entry))
  asyncT : Option Bool
  probePending : Bool
  timerPending : Option Nat
deriving DecidableEq, Repr

/-- The idle-flush delay of `LogBuffer.collect` (`setTimeout(..., 2000)`). -/
def idleFlushDelayMs : Nat := 2000

/-- A fresh `LogBuffer`. -/
def initBuf : BufState :=
  { entries := [], size := 0, sent := [], flusher := none, asyncT := none,
    probePending := false, timerPending := none }

/-- `LogBuffer.#startFlush`: hand `batch` to the transport, chaining onto
the in-flight pipeline when one exists.  `ta` tells whether the transport
returns a pending promise from `sendEntries` (asynchronous transport). -/
def startFlush (ta : Bool) (s : BufState) (batch : List Entry) : BufState :=
  match s.flusher with
  | some chain => { s with sent := s.sent ++ [batch], flusher := some (chain ++ [batch]) }
  | none =>
      let f : Option (List (List Entry)) := if ta then some [batch] else none
      { s with sent := s.sent ++ [batch], flusher := f }

/-- `LogBuffer.flush`: the new state, paired with the pipeline the
returned promise awaits (`none` when the call returns without awaiting
any delivery — the empty-queue early return, or a synchronous transport
leaving `#flusher` unset). -/
def flushStep (ta : Bool) (s : BufState) : BufState × Option (List (List Entry)) :=
  if s.entries = [] then (s, none)
  else
    let s1 := startFlush ta s s.entries
    let s2 := { s1 with entries := [], size := 0, timerPending := none }
    (s2, s2.flusher)

/-- `LogBuffer.collect`: append the serialized entry, then apply the
flush-trigger policy of the current transport mode.  In asynchronous mode
the immediate-flush condition is, verbatim from the source,
`numericLogLevel < 2 || this.#entries.length > 8 || this.#size > 64_000`,
evaluated after the push; otherwise a fresh 2-second idle timer is
started (overwriting the tracked handle). -/
def collectStep (ta : Bool) (s : BufState) (e : Entry) : BufState :=
  let s := { s with entries := s.entries ++ [e], size := s.size + e.len }
  match s.asyncT with
  | some false => { s with sent := s.sent ++ [s.entries], entries := [], size := 0 }
  | none => { s with asyncT := some true, probePending := true }
  | some true =>
      if e.lvl < 2 ∨ s.entries.length > 8 ∨ s.size > 64000 then
        (flushStep ta s).1
      else
        { s with timerPending := some idleFlushDelayMs }

/-- The deferred transport-mode probe scheduled by the first `collect`
(`setImmediate(...)`): skipped when a pipeline already exists, otherwise
it sends the accumulated entries and fixes the mode from the call's
return value. -/
def immediateStep (ta : Bool) (s : BufState) : BufState :=
  if s.probePending then
    let s := { s with probePending := false }
    match s.flusher with
    | some _ => s
    | none =>
        let batch := s.entries
        let s := { s with sent := s.sent ++ [batch], entries := [], size := 0 }
        if ta then { s with flusher := some [batch] } else { s with asyncT := some false }
  else s

/-- The idle timer firing: `void this.flush()`. -/
def timerStep (ta : Bool) (s : BufState) : BufState :=
  if s.timerPending.isSome then
    (flushStep ta { s with timerPending := none }).1
  else s

/-- One schedulable operation on the buffer: a `collect` call, an
explicit `flush()` call, the `setImmediate` probe firing, or an idle
timer firing.  (An idle timer whose handle was overwritten fires a plain
`flush()`, which the `flush` operation already covers.) -/
inductive BufOp where
  | collect (e : Entry)
  | flush
  | immediate
  | timer
deriving DecidableEq, Repr

/-- Apply one operation. -/
def stepOp (ta : Bool) (s : BufState) : BufOp → BufState
  | .collect e => collectStep ta s e
  | .flush => (flushStep ta s).1
  | .immediate => immediateStep ta s
  | .timer => timerStep ta s

/-- Run an interleaving of operations from a fresh buffer. -/
def runOps (ta : Bool) (ops : List BufOp) : BufState :=
  ops.foldl (stepOp ta) initBuf

/-- The entries collected by a trace, in collection order. -/
def collectedOf (ops : List BufOp) : List Entry :=
  ops.filterMap (fun op => match op with | .collect e => some e | _ => none)

/-- The `EnrichingLogger` facade (`src/host/logging.ts`): an immutable
value holding a shared-buffer reference (modelled by an id), the numeric
minimum-level threshold, and the two optional enrichment mappings. -/
structure EnrichingLogger where
  bufferId : Nat
  level : Nat
  reserved : Option JsObj
  custom : Option JsObj

/-- `EnrichingLogger.enrich`: a new facade on the same buffer and
threshold with `fields` spread over the custom enrichment
(`new EnrichingLogger(this.#buffer, this.#level, this.#reservedEnrichment,
\x7b...this.#customEnrichment, ...fields\x7d)`). -/
def enrich (L : EnrichingLogger) (fields : JsObj) : EnrichingLogger :=
  { L with custom := some (jsSpread (L.custom.getD []) fields) }

/-- `EnrichingLogger.enrichReserved`: same, but merging into `reserved`. -/
def enrichReserved (L : EnrichingLogger) (fields : JsObj) : EnrichingLogger :=
  { L with reserved := some (jsSpread (L.reserved.getD []) fields) }

/-- The property list of the line a leveled method of `L` hands to
`LogBuffer.collect` (the facade passes its own `reserved` and `custom`
mappings along with the per-call `fields`). -/
def lineOf (L : EnrichingLogger) (timestamp levelName message : String)
    (errJson : Option JsonV) (fields : Option JsObj) : JsObj :=
  entryFields timestamp levelName message errJson L.reserved L.custom fields

/-- An HTTP response body as produced by `resultToResponse`
(`src/host/http.ts`): a string, a binary buffer (byte list), or the
`JSON.stringify` serialization of a JSON body. -/
inductive RBody where
  | rstr (s : String)
  | rbuf (bytes : List Nat)
  | rjsonText (j : JsonV)

/-- The body recorded for logging: the string itself, the base64 text of
a binary body, or the JSON body verbatim. -/
inductive LogB where
  | lstr (s : String)
  | lb64 (bytes : List Nat)
  | ljson (j : JsonV)

/-- The wrapper's `Response` shape (headers, status, optional body) plus
the `logBody` side channel. -/
structure Resp where
  headers : List (String × String)
  status : Nat
  body : Option RBody
  logBody : Option LogB

/-- A handler result body: string, binary `Buffer`, or JSON object. -/
inductive BodyV where
  | bstr (s : String)
  | bbuf (bytes : List Nat)
  | bjson (j : JsonV)

/-- A handler's return value (`Result` in `src/http.ts`): `void`, a
string, or an object with optional headers, status and body.  In the
source `resultToResponse` first tests `!result`, so the empty string
falls into the falsy branch together with `undefined`. -/
inductive HandlerResult where
  | void
  | str (s : String)
  | obj (headers : Option (List (String × String))) (status : Option Nat)
      (body : Option BodyV)

/-- String-valued header lookup (same last-binding-wins convention as
`jsGet`). -/
def hdrGet (h : List (String × String)) (k : String) : Option String :=
  (h.reverse.lookup k)

/-- `withContentType` (`src/host/http.ts`): default the `content-type`
header (`headers['content-type'] ??= contentType`) without disturbing an
explicitly provided one. -/
def withContentType (headers : Option (List (String × String))) (contentType : String) :
    List (String × String) :=
  match headers with
  | none => [("content-type", contentType)]
  | some hs =>
      if (hdrGet hs "content-type").isNone then hs ++ [("content-type", contentType)]
      else hs

/-- `resultToResponse` (`src/host/http.ts`, lines 152-200), including the
leading `!result` falsiness test. -/
def resultToResponse (result : HandlerResult) (withLogBody : Bool) : Resp :=
  match result with
  | .void => { headers := [], status := 204, body := none, logBody := none }
  | .str s =>
      if s = "" then { headers := [], status := 204, body := none, logBody := none }
      else
        { headers := [("content-type", "text/plain")], status := 200,
          body := some (.rstr s),
          logBody := if withLogBody then some (.lstr s) else none }
  | .obj hs st b =>
      match b with
      | none => { headers := hs.getD [], status := st.getD 200, body := none, logBody := none }
      | some (.bstr s) =>
          { headers := withContentType hs "text/plain", status := st.getD 200,
            body := some (.rstr s),
            logBody := if withLogBody then some (.lstr s) else none }
      | some (.bbuf bytes) =>
          { headers := withContentType hs "application/octet-stream", status := st.getD 200,
            body := some (.rbuf bytes),
            logBody := if withLogBody then some (.lb64 bytes) else none }
      | some (.bjson j) =>
          { headers := withContentType hs "application/json", status := st.getD 200,
            body := some (.rjsonText j),
            logBody := if withLogBody then some (.ljson j) else none }

/-- The outcome of the non-throw tail of `executeRequest`: the response
as of the END-logging point, the level of the `Request END` line, and
whether the registered success callbacks were invoked. -/
structure ReqOutcome where
  response : Resp
  endLevel : String
  successCalled : Bool

/-- The success-path tail of `executeRequest` (`src/host/http.ts`,
lines 113-135): map the handler result to a response, spread
`\x7b"x-timeout": "1", ...response.headers\x7d` over it when the
invocation's inner signal is aborted, then log `Request END` at `debug`
and run the success callbacks when `response.status < 300`, else log at
`warning` and skip them.  (The later ETag/compression stages only ever
add headers and never touch these observables.) -/
def executeRequestTail (result : HandlerResult) (withLogBody : Bool)
    (innerAborted : Bool) : ReqOutcome :=
  let response := resultToResponse result withLogBody
  let response :=
    if innerAborted then
      { response with headers := [("x-timeout", "1")] ++ response.headers }
    else response
  if response.status < 300 then
    { response := response, endLevel := "debug", successCalled := true }
  else
    { response := response, endLevel := "warning", successCalled := false }

/-- The log lines and success-callback outcome of the event wrapper
`handle` (`src/host/logging.ts` companion / `src/unnamed/part_003`):
`trace` BEGIN, the `measure` trace line (emitted even on throw), then
`debug` END plus `await success()` on the non-throw path, or an `error`
END on throw with no success call. -/
def handleEventRun (throws : Bool) : List (String × String) × Bool :=
  let begun := [("trace", "Event BEGIN"), ("trace", "Measurement of execution time")]
  if throws then (begun ++ [("error", "Event END")], false)
  else (begun ++ [("debug", "Event END")], true)

/-- Same for the timer wrapper `triggerTimer` (`src/unnamed/part_002`). -/
def triggerTimerRun (throws : Bool) : List (String × String) × Bool :=
  let begun := [("trace", "Timer BEGIN"), ("trace", "Measurement of execution time")]
  if throws then (begun ++ [("error", "Timer END")], false)
  else (begun ++ [("debug", "Timer END")], true)

/-- Header lookup through optional headers (`undefined` in the source). -/
def optHdr (headers : Option (List (String × String))) (k : String) : Option String :=
  headers.bind (fun h => hdrGet h k)

/-- Definition following the spec's words, for comparison with the code:
an HTTP status is error-class when it is a 4xx or 5xx status. -/
def isErrorClassStatus (status : Nat) : Bool := 400 ≤ status

/-- A concrete logger facade used to instantiate the enrichment theorem. -/
def witLogger : EnrichingLogger := { bufferId := 0, level := 5, reserved := none, custom := none }

/-- A concrete enrichment mapping used to instantiate the enrichment theorem. -/
def witFields : JsObj := [("a", .vstr "1")]

/-- The observable state of one invocation's timeout coordinator
(`createContext`, `src/host/context.ts`): the error lines logged by the
two timer callbacks and the state of the two abort signals. -/
structure InvState where
  log : List (String × String)
  innerAborted : Bool
  outerAborted : Bool
deriving DecidableEq, Repr

/-- Coordinator state at invocation start. -/
def initInv : InvState := { log := [], innerAborted := false, outerAborted := false }

/-- The soft-timeout callback (`setTimeout(..., timeout)`): log an
`error` `Timeout.` line, abort the inner controller and kick off a log
flush (the flush has no effect on this state). -/
def softTimerCb (s : InvState) : InvState :=
  { s with log := s.log ++ [("error", "Timeout.")], innerAborted := true }

/-- The hard-timeout callback (`setTimeout(..., timeout + 15_000)`): log
an `error` `Aborting flush.` line and abort the outer controller. -/
def hardTimerCb (s : InvState) : InvState :=
  { s with log := s.log ++ [("error", "Aborting flush.")], outerAborted := true }

/-- The extra delay of the hard timer over the soft one. -/
def hardTimeoutExtraMs : Nat := 15000

/-- Whether the soft timer fires: the wrapper's `flush()` clears it as
its first step (`clearTimeout(timeoutHandle)`), so it fires exactly when
no completion `flush()` call happens by time `T`.  `tFlushCall` is the
time of that call (`none` when the handler never completes). -/
def softFires (T : Nat) (tFlushCall : Option Nat) : Bool :=
  match tFlushCall with
  | none => true
  | some d => T < d

/-- Whether the hard timer fires: it is cleared only after
`await logger.flush()` settles (`clearTimeout(flushHandle)` comes second),
at time `tFlushCall + flushDur`. -/
def hardFires (T : Nat) (tFlushCall : Option Nat) (flushDur : Nat) : Bool :=
  match tFlushCall with
  | none => true
  | some d => T + hardTimeoutExtraMs < d + flushDur

/-- The coordinator's final observable state for one invocation: apply
whichever timer callbacks fire, in time order (the soft deadline `T`
precedes the hard deadline `T + 15000`). -/
def runInvocation (T : Nat) (tFlushCall : Option Nat) (flushDur : Nat) : InvState :=
  let s1 := if softFires T tFlushCall then softTimerCb initInv else initInv
  if hardFires T tFlushCall flushDur then hardTimerCb s1 else s1

theorem lookup_append {β : Type} (l₁ l₂ : List (String × β)) (k : String) :
    (l₁ ++ l₂).lookup k = (l₁.lookup k).or (l₂.lookup k) := by
  induction l₁ with
  | nil => simp
  | cons hd tl ih =>
      by_cases h : k = hd.1
      · simp [List.lookup, h]
      · have h' : (k == hd.1) = false := by
          simp [h]
        simp only [List.cons_append, List.lookup, h']
        exact ih

theorem jsGet_jsSpread (a b : JsObj) (k : String) :
    jsGet (jsSpread a b) k = (jsGet b k).or (jsGet a k) := by
  unfold jsGet jsSpread
  rw [List.reverse_append, lookup_append]

theorem optGet_getD (o : Option JsObj) (k : String) :
    jsGet (o.getD []) k = optGet o k := by
  cases o <;> simp [optGet, jsGet]

theorem optGet_extra (fields customEnrichment : Option JsObj) (k : String) :
    optGet (extra fields customEnrichment) k =
      (optGet fields k).or (optGet customEnrichment k) := by
  cases fields <;> cases customEnrichment <;>
    simp [extra, optGet, jsGet_jsSpread]

theorem jsGet_entryFields
    (timestamp level message : String) (errJson : Option JsonV)
    (reservedEnrichment customEnrichment fields : Option JsObj) (k : String) :
    jsGet (entryFields timestamp level message errJson
        reservedEnrichment customEnrichment fields) k =
      ((optGet fields k).or (optGet customEnrichment k)).or
        ((optGet reservedEnrichment k).or
          (jsGet (baseFields timestamp level message errJson) k)) := by
  unfold entryFields
  rw [jsGet_jsSpread, jsGet_jsSpread, optGet_getD, optGet_getD, optGet_extra,
    Option.or_assoc]

/-- C8: in the serialized entry literal, the merged enrichment/extra
fields obey the precedence `fields > customEnrichment > reservedEnrichment`:
a key of the per-call fields maps to its per-call value, a key of the
custom enrichment not shadowed by the fields maps to the custom value,
and a reserved key contributes its value only when present in neither of
the other two; a key found in none of the three falls through to the
fixed leading properties. -/
theorem collect_enrichment_precedence
    (timestamp level message : String) (errJson : Option JsonV)
    (reservedEnrichment customEnrichment fields : Option JsObj) (k : String) :
    jsGet (entryFields timestamp level message errJson
        reservedEnrichment customEnrichment fields) k =
      ((optGet fields k).or (optGet customEnrichment k)).or
        ((optGet reservedEnrichment k).or
          (jsGet (baseFields timestamp level message errJson) k)) :=
  jsGet_entryFields timestamp level message errJson
    reservedEnrichment customEnrichment fields k

/-- C1: evaluating the serialization step of `LogBuffer.collect` at the
cyclic error of the repository's own "handles cycles" test shows that the
un-guarded `JSON.stringify` call throws the circular-structure
`TypeError` (the `Except.error` case), which propagates out of the
leveled logger method instead of being logged gracefully as the claim
(and the test) require. -/
theorem collect_cyclic_error_throws :
    collectJson cyclicHeap "t" "error" "With cyclic properties" cyclicError
        none none none =
      .error (circularErrorMessage "extra") := by
  rfl

theorem flushStep_snd_of_ne (ta : Bool) (s : BufState) (h : ¬s.entries = []) :
    (flushStep ta s).2 = (startFlush ta s s.entries).flusher ∧
      (flushStep ta s).1.timerPending = none := by
  unfold flushStep
  simp [h]

/-- C3 (amended): when the queued-entry list is non-empty, the promise an
explicit `flush()` returns awaits the whole delivery chain — every
pipeline already in flight, plus the newly drained batch — and the
tracked idle timer is cancelled.  (The empty-queue case returns early;
see the counterexample.) -/
theorem flush_nonempty_awaits_pipeline (ta : Bool) (s : BufState)
    (h : ¬s.entries = []) :
    (∀ chain, s.flusher = some chain →
        (flushStep ta s).2 = some (chain ++ [s.entries])) ∧
      (s.flusher = none → ta = true → (flushStep ta s).2 = some [s.entries]) ∧
      (flushStep ta s).1.timerPending = none := by
  obtain ⟨h2, h3⟩ := flushStep_snd_of_ne ta s h
  refine ⟨?_, ?_, h3⟩
  · intro chain hc
    rw [h2]
    unfold startFlush
    rw [hc]
  · intro hn hta
    rw [h2]
    unfold startFlush
    rw [hn, hta]
    simp

theorem flush_nonempty_awaits_pipeline_witness :
    (¬([⟨3, 10, 1⟩] : List Entry) = []) ∧
      ((∀ chain, (some [[⟨2, 7, 0⟩]] : Option (List (List Entry))) = some chain →
          (flushStep true
              { entries := [⟨3, 10, 1⟩], size := 10, sent := [[⟨2, 7, 0⟩]],
                flusher := some [[⟨2, 7, 0⟩]], asyncT := some true,
                probePending := false, timerPending := some idleFlushDelayMs }).2 =
            some (chain ++ [[⟨3, 10, 1⟩]])) ∧
        ((some [[⟨2, 7, 0⟩]] : Option (List (List Entry))) = none → true = true →
          (flushStep true
              { entries := [⟨3, 10, 1⟩], size := 10, sent := [[⟨2, 7, 0⟩]],
                flusher := some [[⟨2, 7, 0⟩]], asyncT := some true,
                probePending := false, timerPending := some idleFlushDelayMs }).2 =
            some [[⟨3, 10, 1⟩]]) ∧
        (flushStep true
            { entries := [⟨3, 10, 1⟩], size := 10, sent := [[⟨2, 7, 0⟩]],
              flusher := some [[⟨2, 7, 0⟩]], asyncT := some true,
              probePending := false, timerPending := some idleFlushDelayMs }).1.timerPending =
          none) :=
  ⟨by decide,
    flush_nonempty_awaits_pipeline true
      { entries := [⟨3, 10, 1⟩], size := 10, sent := [[⟨2, 7, 0⟩]],
        flusher := some [[⟨2, 7, 0⟩]], asyncT := some true,
        probePending := false, timerPending := some idleFlushDelayMs }
      (by decide)⟩

/-- C3 counterexample: a reachable buffer state (collect twice, then the
transport-mode probe fires and starts an asynchronous delivery) has an
empty queue, an in-flight pipeline, and a pending idle timer; `flush()`
called in that state returns without awaiting the pipeline and without
cancelling the timer, contradicting the claim for the very state it
singles out. -/
theorem flush_empty_queue_counterexample :
    (runOps true [.collect ⟨3, 10, 1⟩, .collect ⟨3, 12, 2⟩, .immediate]).entries = [] ∧
      (runOps true [.collect ⟨3, 10, 1⟩, .collect ⟨3, 12, 2⟩, .immediate]).flusher =
        some [[⟨3, 10, 1⟩, ⟨3, 12, 2⟩]] ∧
      (runOps true [.collect ⟨3, 10, 1⟩, .collect ⟨3, 12, 2⟩, .immediate]).timerPending =
        some idleFlushDelayMs ∧
      (flushStep true (runOps true [.collect ⟨3, 10, 1⟩, .collect ⟨3, 12, 2⟩, .immediate])).2 =
        none ∧
      (flushStep true (runOps true [.collect ⟨3, 10, 1⟩, .collect ⟨3, 12, 2⟩, .immediate])).1 =
        runOps true [.collect ⟨3, 10, 1⟩, .collect ⟨3, 12, 2⟩, .immediate] := by
  decide

/-- C4 (amended): in asynchronous-transport mode, a collect at numeric
level ≤ 1 (error or fatal) flushes immediately; otherwise a flush is
triggered exactly when, after the entry is appended, strictly more than 8
entries are queued (the 9th) or the cumulative serialized size strictly
exceeds 64,000 bytes; in every other case a 2-second idle timer is
started instead. -/
theorem collect_async_trigger (ta : Bool) (s : BufState) (e : Entry)
    (h : s.asyncT = some true) :
    (e.lvl < 2 ∨ s.entries.length + 1 > 8 ∨ s.size + e.len > 64000 →
        (collectStep ta s e).sent = s.sent ++ [s.entries ++ [e]] ∧
          (collectStep ta s e).entries = []) ∧
      (¬(e.lvl < 2 ∨ s.entries.length + 1 > 8 ∨ s.size + e.len > 64000) →
        (collectStep ta s e).sent = s.sent ∧
          (collectStep ta s e).entries = s.entries ++ [e] ∧
          (collectStep ta s e).timerPending = some idleFlushDelayMs) := by
  unfold collectStep
  rw [h]
  simp only [List.length_append, List.length_cons, List.length_nil]
  constructor
  · intro htrig
    rw [if_pos (by simpa using htrig)]
    unfold flushStep
    rw [if_neg (by simp)]
    unfold startFlush
    cases hf : s.flusher <;> simp
  · intro htrig
    rw [if_neg (by simpa using htrig)]
    exact ⟨rfl, rfl, rfl⟩

theorem collect_async_trigger_witness :
    ({ initBuf with asyncT := some true } : BufState).asyncT = some true ∧
      ((1 < 2 ∨ (0 : Nat) + 1 > 8 ∨ (0 : Nat) + 5 > 64000 →
          (collectStep true { initBuf with asyncT := some true } ⟨1, 5, 0⟩).sent =
              [] ++ [[] ++ [⟨1, 5, 0⟩]] ∧
            (collectStep true { initBuf with asyncT := some true } ⟨1, 5, 0⟩).entries = []) ∧
        (¬(1 < 2 ∨ (0 : Nat) + 1 > 8 ∨ (0 : Nat) + 5 > 64000) →
          (collectStep true { initBuf with asyncT := some true } ⟨1, 5, 0⟩).sent = [] ∧
            (collectStep true { initBuf with asyncT := some true } ⟨1, 5, 0⟩).entries =
              [] ++ [⟨1, 5, 0⟩] ∧
            (collectStep true { initBuf with asyncT := some true } ⟨1, 5, 0⟩).timerPending =
              some idleFlushDelayMs)) :=
  ⟨by decide,
    collect_async_trigger true { initBuf with asyncT := some true } ⟨1, 5, 0⟩ (by decide)⟩

/-- C4 counterexample: with an asynchronous transport, after the probe
batch is away, eight further info-level collects leave eight entries
queued and trigger no flush (`sent` still holds only the probe batch) —
the source condition is `length > 8`, not `length = 8`, so the claimed
"8 entries queued" trigger point is wrong (the flush happens on the 9th). -/
theorem collect_async_trigger_counterexample :
    (runOps true ([.collect ⟨3, 5, 0⟩, .immediate] ++
          (List.range 8).map (fun i => .collect ⟨3, 5, i + 1⟩))).asyncT = some true ∧
      (runOps true ([.collect ⟨3, 5, 0⟩, .immediate] ++
          (List.range 8).map (fun i => .collect ⟨3, 5, i + 1⟩))).entries.length = 8 ∧
      (runOps true ([.collect ⟨3, 5, 0⟩, .immediate] ++
          (List.range 8).map (fun i => .collect ⟨3, 5, i + 1⟩))).sent = [[⟨3, 5, 0⟩]] := by
  decide

theorem flushStep_flatten (ta : Bool) (s : BufState) :
    (flushStep ta s).1.sent.flatten ++ (flushStep ta s).1.entries =
      s.sent.flatten ++ s.entries := by
  unfold flushStep
  by_cases h : s.entries = []
  · simp [h]
  · rw [if_neg h]
    unfold startFlush
    cases hf : s.flusher <;> simp [List.flatten_concat]

theorem collectStep_flatten (ta : Bool) (s : BufState) (e : Entry) :
    (collectStep ta s e).sent.flatten ++ (collectStep ta s e).entries =
      s.sent.flatten ++ s.entries ++ [e] := by
  cases ha : s.asyncT with
  | none =>
      unfold collectStep
      rw [ha]
      simp [List.append_assoc]
  | some b =>
      cases b with
      | false =>
          unfold collectStep
          rw [ha]
          simp [List.flatten_concat, List.append_assoc]
      | true =>
          unfold collectStep
          simp only [ha]
          split
          · rw [flushStep_flatten]
            simp [List.append_assoc]
          · simp [List.append_assoc]

theorem immediateStep_flatten (ta : Bool) (s : BufState) :
    (immediateStep ta s).sent.flatten ++ (immediateStep ta s).entries =
      s.sent.flatten ++ s.entries := by
  unfold immediateStep
  by_cases hp : s.probePending
  · rw [if_pos hp]
    cases hf : s.flusher with
    | some chain => simp
    | none => cases ta <;> simp [List.flatten_concat]
  · rw [if_neg hp]

theorem timerStep_flatten (ta : Bool) (s : BufState) :
    (timerStep ta s).sent.flatten ++ (timerStep ta s).entries =
      s.sent.flatten ++ s.entries := by
  unfold timerStep
  by_cases ht : s.timerPending.isSome
  · rw [if_pos ht]
    exact flushStep_flatten ta { s with timerPending := none }
  · rw [if_neg ht]

theorem stepOp_flatten (ta : Bool) (s : BufState) (op : BufOp) :
    (stepOp ta s op).sent.flatten ++ (stepOp ta s op).entries =
      s.sent.flatten ++ s.entries ++
        (match op with | .collect e => [e] | _ => []) := by
  cases op with
  | collect e => exact collectStep_flatten ta s e
  | flush => simpa using flushStep_flatten ta s
  | immediate => simpa using immediateStep_flatten ta s
  | timer => simpa using timerStep_flatten ta s

theorem foldl_stepOp_flatten (ta : Bool) (ops : List BufOp) :
    ∀ s : BufState,
      (ops.foldl (stepOp ta) s).sent.flatten ++ (ops.foldl (stepOp ta) s).entries =
        s.sent.flatten ++ s.entries ++ collectedOf ops := by
  induction ops with
  | nil => intro s; simp [collectedOf]
  | cons op rest ih =>
      intro s
      rw [List.foldl_cons, ih (stepOp ta s op), stepOp_flatten]
      cases op <;> simp [collectedOf, List.append_assoc]

/-- C2: over every interleaving of `collect` calls, explicit `flush()`
calls, the transport-mode probe and idle-timer firings — with either a
synchronous or an asynchronous transport — the concatenation of the
batches handed to `sendEntries`, followed by the entries still queued,
equals the sequence of collected entries in collection order.  Hence each
collected entry is handed to the transport exactly once, batches are
pairwise disjoint segments, and delivery (hand-off to the chained
pipeline) preserves collection order.  (Entries above the level threshold
are filtered by the logger facade before `collect` and never reach the
buffer.) -/
theorem buffer_delivery_exactly_once_in_order (ta : Bool) (ops : List BufOp) :
    (runOps ta ops).sent.flatten ++ (runOps ta ops).entries = collectedOf ops := by
  unfold runOps
  rw [foldl_stepOp_flatten]
  simp [initBuf]

/-- C5: for an invocation with configured timeout `T`: a soft-timer fire
logs exactly one error-level `Timeout.` line and aborts only the inner
signal (shown by a run where the handler misses `T` but the flush settles
before the hard deadline, leaving the outer signal unaborted); whenever
delivery is still pending at `T + 15000` the hard timer logs an
error-level `Aborting flush.` line and aborts the outer signal — whether
the handler never completes, completes in time but its final flush
outlasts the hard deadline (only the hard timer fires), or completes
late with a hanging flush (both fire, still exactly one `Timeout.`
line); and an invocation whose completion `flush()` happens by `T` and
whose log flush settles by `T + 15000` fires neither timer (the soft
timer is cleared before awaiting the flush, the hard timer after it
settles). -/
theorem timeout_coordinator (T flushDur d : Nat) :
    (T < d → d + flushDur ≤ T + hardTimeoutExtraMs →
        runInvocation T (some d) flushDur =
          { log := [("error", "Timeout.")], innerAborted := true,
            outerAborted := false }) ∧
      (runInvocation T none flushDur =
          { log := [("error", "Timeout."), ("error", "Aborting flush.")],
            innerAborted := true, outerAborted := true } ∧
        (runInvocation T none flushDur).log.count ("error", "Timeout.") = 1) ∧
      (d ≤ T → T + hardTimeoutExtraMs < d + flushDur →
        runInvocation T (some d) flushDur =
          { log := [("error", "Aborting flush.")], innerAborted := false,
            outerAborted := true }) ∧
      (T < d → T + hardTimeoutExtraMs < d + flushDur →
        runInvocation T (some d) flushDur =
          { log := [("error", "Timeout."), ("error", "Aborting flush.")],
            innerAborted := true, outerAborted := true } ∧
        (runInvocation T (some d) flushDur).log.count ("error", "Timeout.") = 1) ∧
      (d ≤ T → d + flushDur ≤ T + hardTimeoutExtraMs →
        runInvocation T (some d) flushDur = initInv) := by
  refine ⟨?_, ⟨?_, ?_⟩, ?_, ?_, ?_⟩
  · intro h1 h2
    have hh : ¬(T + hardTimeoutExtraMs < d + flushDur) := by omega
    simp [runInvocation, softFires, hardFires, h1, hh, softTimerCb, initInv]
  · simp [runInvocation, softFires, hardFires, softTimerCb, hardTimerCb, initInv]
  · simp [runInvocation, softFires, hardFires, softTimerCb, hardTimerCb, initInv]
  · intro h1 h2
    have hs : ¬(T < d) := by omega
    simp [runInvocation, softFires, hardFires, hs, h2, hardTimerCb, initInv]
  · intro h1 h2
    have heq : runInvocation T (some d) flushDur =
        { log := [("error", "Timeout."), ("error", "Aborting flush.")],
          innerAborted := true, outerAborted := true } := by
      simp [runInvocation, softFires, hardFires, h1, h2, softTimerCb, hardTimerCb,
        initInv]
    refine ⟨heq, ?_⟩
    rw [heq]
    decide
  · intro h1 h2
    have hs : ¬(T < d) := by omega
    have hh : ¬(T + hardTimeoutExtraMs < d + flushDur) := by omega
    simp [runInvocation, softFires, hardFires, hs, hh]

theorem timeout_coordinator_witness :
    (1000 < 1500 ∧ 1500 + 100 ≤ 1000 + hardTimeoutExtraMs ∧
        runInvocation 1000 (some 1500) 100 =
          { log := [("error", "Timeout.")], innerAborted := true,
            outerAborted := false }) ∧
      (500 ≤ 1000 ∧ 1000 + hardTimeoutExtraMs < 500 + 20000 ∧
        runInvocation 1000 (some 500) 20000 =
          { log := [("error", "Aborting flush.")], innerAborted := false,
            outerAborted := true }) ∧
      (1000 < 1500 ∧ 1000 + hardTimeoutExtraMs < 1500 + 20000 ∧
        runInvocation 1000 (some 1500) 20000 =
          { log := [("error", "Timeout."), ("error", "Aborting flush.")],
            innerAborted := true, outerAborted := true }) ∧
      (500 ≤ 1000 ∧ 500 + 100 ≤ 1000 + hardTimeoutExtraMs ∧
        runInvocation 1000 (some 500) 100 = initInv) :=
  ⟨⟨by decide, by decide,
      (timeout_coordinator 1000 100 1500).1 (by decide) (by decide)⟩,
    ⟨by decide, by decide,
      (timeout_coordinator 1000 20000 500).2.2.1 (by decide) (by decide)⟩,
    ⟨by decide, by decide,
      ((timeout_coordinator 1000 20000 1500).2.2.2.1 (by decide) (by decide)).1⟩,
    ⟨by decide, by decide,
      (timeout_coordinator 1000 100 500).2.2.2.2 (by decide) (by decide)⟩⟩

theorem executeRequestTail_response (result : HandlerResult) (w a : Bool) :
    (executeRequestTail result w a).response =
      (if a then
          { resultToResponse result w with
              headers := [("x-timeout", "1")] ++ (resultToResponse result w).headers }
        else resultToResponse result w) := by
  unfold executeRequestTail
  dsimp only
  split <;> (split <;> rfl)

/-- C6 (amended): on the non-throw path, the HTTP wrapper logs
`Request END` at `debug` and invokes the success callbacks exactly when
the response status is strictly below 300 (so a 3xx response gets `warn`
and no success callbacks, although 3xx is not an HTTP error class), and
logs at `warn` level and skips the callbacks otherwise; the event and
timer wrappers log their END line at `debug` and invoke the success
callbacks unconditionally on the non-throw path. -/
theorem wrapper_end_logging (result : HandlerResult) (withLogBody innerAborted : Bool) :
    ((executeRequestTail result withLogBody innerAborted).endLevel,
        (executeRequestTail result withLogBody innerAborted).successCalled) =
      (if (resultToResponse result withLogBody).status < 300 then ("debug", true)
        else ("warning", false)) ∧
      handleEventRun false =
        ([("trace", "Event BEGIN"), ("trace", "Measurement of execution time"),
            ("debug", "Event END")], true) ∧
      triggerTimerRun false =
        ([("trace", "Timer BEGIN"), ("trace", "Measurement of execution time"),
            ("debug", "Timer END")], true) := by
  refine ⟨?_, rfl, rfl⟩
  unfold executeRequestTail
  cases innerAborted <;> dsimp only <;>
    by_cases hst : (resultToResponse result withLogBody).status < 300 <;>
    simp [hst]

/-- C6 counterexample: an HTTP handler returning `\x7bstatus: 302\x7d`
(no body) produces a response whose status is not error-class, yet the
wrapper logs `Request END` at `warning` level and skips the success
callbacks, contradicting the claim's non-error-class criterion. -/
theorem http_end_302_counterexample :
    isErrorClassStatus 302 = false ∧
      (executeRequestTail (.obj none (some 302) none) true false).endLevel = "warning" ∧
      (executeRequestTail (.obj none (some 302) none) true false).successCalled = false :=
  ⟨rfl, rfl, rfl⟩

theorem hdrGet_append (a b : List (String × String)) (k : String) :
    hdrGet (a ++ b) k = (hdrGet b k).or (hdrGet a k) := by
  unfold hdrGet
  rw [List.reverse_append, lookup_append]

theorem hdrGet_withContentType (hs : Option (List (String × String))) (ct : String) :
    hdrGet (withContentType hs ct) "content-type" =
      (optHdr hs "content-type").or (some ct) := by
  unfold withContentType optHdr
  cases hs with
  | none => rfl
  | some h =>
      dsimp only
      by_cases hh : (hdrGet h "content-type").isNone
      · rw [if_pos hh, hdrGet_append]
        rw [Option.isNone_iff_eq_none] at hh
        rw [hh]
        have hh' : List.lookup "content-type" h.reverse = none := hh
        simp [hdrGet, List.lookup, hh']
      · rw [if_neg hh]
        rw [Option.isNone_iff_eq_none] at hh
        cases hc : hdrGet h "content-type" with
        | none => exact absurd hc hh
        | some c => simp [hc]

/-- C7 (amended): `resultToResponse` yields status 204 with empty headers
and no body for a void/undefined result and for the empty string (the
source tests `!result`, and `""` is falsy); status 200 with content-type
`text/plain` and the string as body for every non-empty string result;
and for an object result with a body, the declared status (defaulting to
200) with content-type inferred as `text/plain` for a string body,
`application/octet-stream` for a binary body, and `application/json` for
a JSON body, an explicitly provided content-type header being kept. -/
theorem resultToResponse_mapping (w : Bool) :
    ((resultToResponse .void w).status = 204 ∧ (resultToResponse .void w).headers = [] ∧
        (resultToResponse .void w).body = none) ∧
      ((resultToResponse (.str "") w).status = 204 ∧
        (resultToResponse (.str "") w).headers = [] ∧
        (resultToResponse (.str "") w).body = none) ∧
      (∀ s : String, ¬s = "" →
        (resultToResponse (.str s) w).status = 200 ∧
          (resultToResponse (.str s) w).headers = [("content-type", "text/plain")] ∧
          (resultToResponse (.str s) w).body = some (.rstr s)) ∧
      (∀ (hs : Option (List (String × String))) (st : Option Nat) (s : String),
        (resultToResponse (.obj hs st (some (.bstr s))) w).status = st.getD 200 ∧
          (resultToResponse (.obj hs st (some (.bstr s))) w).body = some (.rstr s) ∧
          hdrGet (resultToResponse (.obj hs st (some (.bstr s))) w).headers "content-type" =
            (optHdr hs "content-type").or (some "text/plain")) ∧
      (∀ (hs : Option (List (String × String))) (st : Option Nat) (bytes : List Nat),
        (resultToResponse (.obj hs st (some (.bbuf bytes))) w).status = st.getD 200 ∧
          (resultToResponse (.obj hs st (some (.bbuf bytes))) w).body = some (.rbuf bytes) ∧
          hdrGet (resultToResponse (.obj hs st (some (.bbuf bytes))) w).headers "content-type" =
            (optHdr hs "content-type").or (some "application/octet-stream")) ∧
      (∀ (hs : Option (List (String × String))) (st : Option Nat) (j : JsonV),
        (resultToResponse (.obj hs st (some (.bjson j))) w).status = st.getD 200 ∧
          (resultToResponse (.obj hs st (some (.bjson j))) w).body = some (.rjsonText j) ∧
          hdrGet (resultToResponse (.obj hs st (some (.bjson j))) w).headers "content-type" =
            (optHdr hs "content-type").or (some "application/json")) := by
  refine ⟨⟨rfl, rfl, rfl⟩, ⟨rfl, rfl, rfl⟩, ?_, ?_, ?_, ?_⟩
  · intro s hs
    unfold resultToResponse
    dsimp only
    rw [if_neg hs]
    exact ⟨rfl, rfl, rfl⟩
  · intro hs st s
    exact ⟨rfl, rfl, hdrGet_withContentType hs "text/plain"⟩
  · intro hs st bytes
    exact ⟨rfl, rfl, hdrGet_withContentType hs "application/octet-stream"⟩
  · intro hs st j
    exact ⟨rfl, rfl, hdrGet_withContentType hs "application/json"⟩

theorem resultToResponse_mapping_witness :
    (¬("hello" : String) = "") ∧
      ((resultToResponse (.str "hello") true).status = 200 ∧
        (resultToResponse (.str "hello") true).headers = [("content-type", "text/plain")] ∧
        (resultToResponse (.str "hello") true).body = some (.rstr "hello")) :=
  ⟨by decide, (resultToResponse_mapping true).2.2.1 "hello" (by decide)⟩

/-- C7 counterexample: the empty-string result is falsy (`!result`), so
the wrapper returns status 204 with no body and empty headers, not the
claimed 200 `text/plain` response carrying the string. -/
theorem resultToResponse_empty_string_counterexample :
    (resultToResponse (.str "") true).status = 204 ∧
      (resultToResponse (.str "") true).headers = [] ∧
      (resultToResponse (.str "") true).body = none ∧
      ¬(resultToResponse (.str "") true).status = 200 :=
  ⟨rfl, rfl, rfl, by decide⟩

/-- C9: `enrich` returns a new facade on the same buffer and level
threshold, leaving the parent's reserved and custom mappings untouched;
a key contributed only by the enrichment argument never appears in a
line logged through the parent facade, and appears with its merged value
in a line logged through the returned facade. -/
theorem enrich_copy_on_write (L : EnrichingLogger) (m : JsObj)
    (timestamp levelName message : String) (errJson : Option JsonV)
    (fields : Option JsObj) (k : String)
    (hcustom : optGet L.custom k = none) (hreserved : optGet L.reserved k = none)
    (hfields : optGet fields k = none)
    (hbase : jsGet (baseFields timestamp levelName message errJson) k = none) :
    (enrich L m).bufferId = L.bufferId ∧ (enrich L m).level = L.level ∧
      (enrich L m).reserved = L.reserved ∧
      jsGet (lineOf L timestamp levelName message errJson fields) k = none ∧
      jsGet (lineOf (enrich L m) timestamp levelName message errJson fields) k =
        jsGet m k := by
  refine ⟨rfl, rfl, rfl, ?_, ?_⟩
  · unfold lineOf
    rw [jsGet_entryFields, hcustom, hreserved, hfields, hbase]
    rfl
  · unfold lineOf enrich
    rw [jsGet_entryFields]
    dsimp only
    rw [hfields, hreserved, hbase]
    have hc : jsGet (L.custom.getD []) k = none := by
      rw [optGet_getD, hcustom]
    simp only [Option.none_or, Option.or_none, optGet, Option.some_bind]
    rw [jsGet_jsSpread, hc]
    simp

theorem enrich_copy_on_write_witness :
    optGet witLogger.custom "a" = none ∧ optGet witLogger.reserved "a" = none ∧
      optGet none "a" = none ∧
      jsGet (baseFields "t" "info" "m" none) "a" = none ∧
      ((enrich witLogger witFields).bufferId = witLogger.bufferId ∧
        (enrich witLogger witFields).level = witLogger.level ∧
        (enrich witLogger witFields).reserved = witLogger.reserved ∧
        jsGet (lineOf witLogger "t" "info" "m" none none) "a" = none ∧
        jsGet (lineOf (enrich witLogger witFields) "t" "info" "m" none none) "a" =
          jsGet witFields "a") :=
  ⟨rfl, rfl, rfl, rfl,
    enrich_copy_on_write witLogger witFields "t" "info" "m" none none "a" rfl rfl rfl rfl⟩

/-- C10: when the inner cancellation signal is aborted at the time an
HTTP handler returns without throwing, the wrapper's response headers are
`\x7b"x-timeout": "1", ...response.headers\x7d` — the `x-timeout` header
is present with value `1` unless the handler's own headers already bind
that key (handler precedence) — and when the signal is not aborted, the
wrapper adds no such header (the headers are those of `resultToResponse`
unchanged). -/
theorem xtimeout_header_on_abort (result : HandlerResult) (w : Bool) :
    (∀ k, hdrGet (executeRequestTail result w true).response.headers k =
        (hdrGet (resultToResponse result w).headers k).or
          (hdrGet [("x-timeout", "1")] k)) ∧
      hdrGet (executeRequestTail result w true).response.headers "x-timeout" =
        (hdrGet (resultToResponse result w).headers "x-timeout").or (some "1") ∧
      (executeRequestTail result w false).response.headers =
        (resultToResponse result w).headers := by
  have h1 := executeRequestTail_response result w true
  have h0 := executeRequestTail_response result w false
  simp only [if_pos] at h1
  simp only [Bool.false_eq_true, if_false] at h0
  refine ⟨?_, ?_, ?_⟩
  · intro k
    rw [h1]
    exact hdrGet_append [("x-timeout", "1")] (resultToResponse result w).headers k
  · rw [h1]
    exact hdrGet_append [("x-timeout", "1")] (resultToResponse result w).headers "x-timeout"
  · rw [h0]

end NodeHost
